import Mathlib

/-!
Verification of the gochatp2p P2P chat application against its
natural-language specification.

The Go source is shallowly embedded: bytes are `Nat` (values 0..255 in the
program; the embedding is stated for the values that actually arise),
byte slices are `List Nat`, Go `error` results are `Except String`
values carrying the exact `fmt.Errorf` message of the source, and an
operation that can hit a Go runtime panic (slice index out of range) is
wrapped in `Option`, `none` modelling the panic.

The SuperNode manager's coarse `sync.RWMutex` serialises its operations,
so state is modelled sequentially — but the lock itself is semantically
load-bearing in one way: `sync.RWMutex` is not reentrant, and the
election/failover path calls `checkIfNodeIsNoSuperNode` → `GetNode`,
which acquires `sm.mu.RLock` while the caller already holds
`sm.mu.Lock`, a guaranteed self-deadlock.  Every operation that can
reach that nested acquisition is therefore embedded with an `Option`
result, `none` modelling the hang (the operation never returns and its
remaining mutations never happen).

The AES-128 block cipher and Go's CBC mode driver live in the Go standard
library (`crypto/aes`, `crypto/cipher`), outside this repository; the
encrypt/decrypt functions of `supernode.go` are therefore embedded
parametrically over the per-key block-encryption and block-decryption
functions `E`/`D` on 16-byte blocks (for a real AES key these are
mutually inverse length-preserving maps), while the CBC chaining, IV
handling, PKCS7 padding and all validation logic — the code that is in
the repository — is embedded verbatim.
-/

namespace GoChat

/-! ## Codec/Crypto (supernode.go: encryptAES, decryptAES, pkcs7Pad, pkcs7Unpad) -/

/-- Bytewise XOR of two byte strings, as performed blockwise by Go's CBC mode. -/
def xorBytes (a b : List Nat) : List Nat := List.zipWith (fun x y => x ^^^ y) a b

/-- Fuel-indexed block splitter; the fuel only forces structural
termination and is immaterial as soon as it is at least the list
length (`chunk16Go_fuel` below). -/
def chunk16Go : Nat → List Nat → List (List Nat)
  | _, [] => []
  | 0, _ :: _ => []
  | fuel + 1, a :: l => (a :: l).take 16 :: chunk16Go fuel ((a :: l).drop 16)

/-- Split a byte string into consecutive 16-byte blocks
(`aes.BlockSize = 16`), as `cipher.BlockMode.CryptBlocks` walks its input. -/
def chunk16 (l : List Nat) : List (List Nat) :=
  chunk16Go l.length l

/-- CBC encryption chaining (`cipher.NewCBCEncrypter` followed by
`CryptBlocks`), parametric in the block encryption function `E`:
each plaintext block is XORed with the previous ciphertext block
(initially the IV) and then encrypted. -/
def cbcEnc (E : List Nat → List Nat) (prev : List Nat) : List (List Nat) → List (List Nat)
  | [] => []
  | b :: bs =>
    let c := E (xorBytes prev b)
    c :: cbcEnc E c bs

/-- CBC decryption chaining (`cipher.NewCBCDecrypter` followed by
`CryptBlocks`), parametric in the block decryption function `D`. -/
def cbcDec (D : List Nat → List Nat) (prev : List Nat) : List (List Nat) → List (List Nat)
  | [] => []
  | c :: cs => xorBytes prev (D c) :: cbcDec D c cs

/-- `pkcs7Pad` (supernode.go): append `blockSize - len(data)%blockSize`
copies of that very value. -/
def pkcs7Pad (data : List Nat) (blockSize : Nat) : List Nat :=
  let padding := blockSize - data.length % blockSize
  data ++ List.replicate padding padding

/-- `pkcs7Unpad` (supernode.go).  Result `none` models the Go runtime
panic that a negative index `len(data) - padding` in the validation loop
would raise; `some (Except.error m)` carries the exact error message of
the source. -/
def pkcs7Unpad (data : List Nat) (blockSize : Nat) : Option (Except String (List Nat)) :=
  if data.length = 0 then some (Except.error "data is empty")
  else
    let padding := data.getLastD 0
    if blockSize < padding ∨ padding = 0 then some (Except.error "invalid padding")
    else if data.length < padding then none
    else if (data.drop (data.length - padding)).any (fun b => b != padding) then
      some (Except.error "invalid padding")
    else some (Except.ok (data.take (data.length - padding)))

/-- `encryptAES` (supernode.go), parametric in the block encryption
function `E` of the AES key and in the 16-byte random IV drawn inside
the Go function: PKCS7-pad, CBC-encrypt, prepend the IV. -/
def encryptAES (E : List Nat → List Nat) (iv : List Nat) (data : List Nat) : List Nat :=
  let padded := pkcs7Pad data 16
  iv ++ (cbcEnc E iv (chunk16 padded)).flatten

/-- `decryptAES` (supernode.go), parametric in the block decryption
function `D` of the AES key: reject short input, split off the IV,
reject a non-multiple-of-16 remainder, CBC-decrypt, strip PKCS7. -/
def decryptAES (D : List Nat → List Nat) (data : List Nat) : Option (Except String (List Nat)) :=
  if data.length < 16 then some (Except.error "ciphertext too short")
  else
    let iv := data.take 16
    let ciphertext := data.drop 16
    if ciphertext.length % 16 ≠ 0 then
      some (Except.error "ciphertext length not multiple of block size")
    else
      let plaintext := (cbcDec D iv (chunk16 ciphertext)).flatten
      pkcs7Unpad plaintext 16

/-- The two `decryptAES` length-validation messages; the spec calls this
error kind `InvalidInput`. -/
def invalidInputMsg (s : String) : Bool :=
  s == "ciphertext too short" || s == "ciphertext length not multiple of block size"

/-- Whether a `decryptAES` outcome is an `InvalidInput`-kind failure. -/
def isInvalidInput (r : Option (Except String (List Nat))) : Bool :=
  match r with
  | some (Except.error e) => invalidInputMsg e
  | _ => false

/-- Whether a `decryptAES` outcome is a `BadPadding`-kind failure (the
spec's name for the padding-validation error of `pkcs7Unpad`). -/
def isBadPadding (r : Option (Except String (List Nat))) : Bool :=
  match r with
  | some (Except.error e) => e == "invalid padding"
  | _ => false

/-! ## NAT Resolver (stun.go: parseSTUNResponse, getPublicIPAndPort) -/

/-- `STUNBindingResponse` constant (stun.go). -/
def STUNBindingResponse : Nat := 0x0101

/-- `STUNHeaderLength` constant (stun.go). -/
def STUNHeaderLength : Nat := 20

/-- `STUNMAGIC_COOKIE` constant (stun.go). -/
def STUNMAGIC_COOKIE : Nat := 0x2112A442

/-- `bytesToUint16` (stun.go): `uint16(b[0])<<8 | uint16(b[1])`.  Every
call site below passes a slice of length exactly 2, so the `getD`
defaults are never consulted. -/
def bytesToUint16 (b : List Nat) : Nat := (b.getD 0 0) * 256 + (b.getD 1 0)

/-- `uint32ToBytes` (stun.go): big-endian bytes of a `uint32`. -/
def uint32ToBytes (n : Nat) : List Nat :=
  [(n >>> 24) % 256, (n >>> 16) % 256, (n >>> 8) % 256, n % 256]

/-- Go slice expression `d[lo:hi]` on a slice whose capacity equals its
length (such as a slice holding exactly the received datagram):
`none` models the runtime panic when `hi` exceeds the bounds. -/
def goSlice (d : List Nat) (lo hi : Nat) : Option (List Nat) :=
  if lo ≤ hi ∧ hi ≤ d.length then some ((d.drop lo).take (hi - lo)) else none

/-- `net.IP(ipBytes).String()` for a 4-byte slice: dotted decimal. -/
def ipString (bs : List Nat) : String :=
  String.intercalate "." (bs.map (fun b => toString b))

/-- The attribute-walking loop of `parseSTUNResponse` (stun.go lines
149-190).  `ip`/`port` are the accumulators mutated by the loop;
`some (ip, port)` is the state on normal loop exit (including the two
`break`s), `none` models a slice-bounds panic.  After reading an
attribute's type and length, a XOR-MAPPED-ADDRESS attribute (0x0020)
of the IPv4 family is decoded by XORing against the magic cookie; the
source guards the value slice only with `len(attrValue) >= 4` before
slicing `attrValue[4:8]`. -/
def parseSTUNAttrsGo (data : List Nat) (attrsEnd : Nat) :
    Nat → Nat → String → Nat → Option (String × Nat)
  | 0, _, ip, port => some (ip, port)
  | fuel + 1, attrsStart, ip, port =>
    if attrsStart < attrsEnd then
    if attrsStart + 4 > attrsEnd then some (ip, port)
    else
      match goSlice data attrsStart (attrsStart + 2) with
      | none => none
      | some tB =>
        match goSlice data (attrsStart + 2) (attrsStart + 4) with
        | none => none
        | some lB =>
          let attrType := bytesToUint16 tB
          let attrLength := bytesToUint16 lB
          let valStart := attrsStart + 4
          if valStart + attrLength > attrsEnd then some (ip, port)
          else
            match goSlice data valStart (valStart + attrLength) with
            | none => none
            | some attrValue =>
              let step : Option (String × Nat) :=
                if attrType = 0x0020 then
                  if 4 ≤ attrValue.length then
                    let addrFamily := attrValue.getD 1 0
                    if addrFamily = 0x01 then
                      match goSlice attrValue 2 4 with
                      | none => none
                      | some pB =>
                        let newPort := Nat.xor (bytesToUint16 pB) (STUNMAGIC_COOKIE >>> 16)
                        match goSlice attrValue 4 8 with
                        | none => none
                        | some xorIP =>
                          let cookieBytes := uint32ToBytes STUNMAGIC_COOKIE
                          let ipBytes := (List.range 4).map
                            (fun i => Nat.xor (xorIP.getD i 0) (cookieBytes.getD i 0))
                          some (ipString ipBytes, newPort)
                    else some (ip, port)
                  else some (ip, port)
                else some (ip, port)
              match step with
              | none => none
              | some (ip', port') =>
                parseSTUNAttrsGo data attrsEnd fuel
                  (valStart + attrLength + (4 - attrLength % 4) % 4) ip' port'
    else some (ip, port)

/-- The attribute walk entered at `attrsStart`: the fuel
`attrsEnd - attrsStart` over-approximates the iteration count, since
every iteration advances `attrsStart` by at least 4. -/
def parseSTUNAttrsLoop (data : List Nat) (attrsEnd : Nat) (attrsStart : Nat)
    (ip : String) (port : Nat) : Option (String × Nat) :=
  parseSTUNAttrsGo data attrsEnd (attrsEnd - attrsStart) attrsStart ip port

/-- `parseSTUNResponse` (stun.go): header validation then the attribute
walk; `some (Except.error m)` carries the source's error message,
`none` models a slice-bounds panic inside the walk. -/
def parseSTUNResponse (data : List Nat) : Option (Except String (String × Nat)) :=
  if data.length < STUNHeaderLength then some (Except.error "response data too short")
  else
    match goSlice data 0 2 with
    | none => none
    | some mtB =>
      if bytesToUint16 mtB ≠ STUNBindingResponse then
        some (Except.error "invalid STUN response type")
      else
        match goSlice data 2 4 with
        | none => none
        | some mlB =>
          let msgLength := bytesToUint16 mlB
          if data.length < STUNHeaderLength + msgLength then
            some (Except.error "response data incomplete")
          else
            match parseSTUNAttrsLoop data (STUNHeaderLength + msgLength) STUNHeaderLength "" 0 with
            | none => none
            | some (ip, port) =>
              if ip = "" then some (Except.error "mapped address not found in STUN response")
              else some (Except.ok (ip, port))

/-- The fixed, priority-ordered STUN server list of `getPublicIPAndPort`
(stun.go lines 21-41). -/
def stunServers : List String :=
  ["stun.l.google.com:19302", "stun1.l.google.com:19302", "stun2.l.google.com:19302",
   "stun3.l.google.com:19302", "stun4.l.google.com:19302", "stun.qq.com:19302",
   "stun.miwifi.com:19302", "stun.msn.com:19302", "stun.hot-chilli.net:19302",
   "stun.ekiga.net:3478", "stun.ideasip.com:3478", "stun.rixtelecom.se:3478",
   "stun.schlund.de:3478", "stun.stunprotocol.org:3478", "stun.voiparound.com:3478",
   "stun.voipbuster.com:3478", "stun.voipstunt.com:3478", "stun.voxgratia.org:3478",
   "stun.xten.com:3478"]

/-- The per-server loop of `getPublicIPAndPort`: try each server in
order, return the first successful `sendSTUNRequest` outcome.  The
network interaction of `sendSTUNRequest` is abstracted into the
environment `attempt`, mapping a server to `some (ip, port)` on success
and `none` on any of its error returns. -/
def tryServers (attempt : String → Option (String × Nat)) : List String → Option (String × Nat)
  | [] => none
  | srv :: rest =>
    match attempt srv with
    | some r => some r
    | none => tryServers attempt rest

/-- `getPublicIPAndPort` (stun.go): first successful server wins; if all
fail, fall back to `getLocalIP()` (the `localIP` parameter, network
interaction abstracted) and `AppConfig.TCPPort`.  The second component
is the Go `error` return value. -/
def getPublicIPAndPort (attempt : String → Option (String × Nat)) (localIP : String)
    (tcpPort : Nat) : (String × Nat) × Option String :=
  match tryServers attempt stunServers with
  | some r => (r, none)
  | none => ((localIP, tcpPort), none)

/-! ## Data model (NodeInfo, SuperNodeInfo, SuperNodeManager)

Wall-clock time is modelled as a `Nat` count of seconds; each operation
that calls `time.Now()` takes the current time `t` as an explicit
parameter, and `time.Since(x) < 30*time.Second` becomes `t < x + 30`.
The manager's mutex serialises the operations, so they are modelled as
sequential state transformers; operations that nest an `RLock` under
their own held write lock never return and yield `none` (see the file
header). -/

/-- `NodeInfo` (client source file). -/
structure NodeInfo where
  ID : String
  Address : String
  Nickname : String
  NoSuperNode : Bool
deriving DecidableEq

/-- `SuperNodeInfo` (supernode.go): embeds a `NodeInfo` and adds the
relay flag and the last-activity timestamp. -/
structure SuperNodeInfo where
  nodeInfo : NodeInfo
  IsSuperNode : Bool
  LastActive : Nat
deriving DecidableEq

/-- Promoted field of the embedded `NodeInfo`, as Go promotes it. -/
def SuperNodeInfo.ID (sn : SuperNodeInfo) : String := sn.nodeInfo.ID

/-- Promoted field of the embedded `NodeInfo`. -/
def SuperNodeInfo.Address (sn : SuperNodeInfo) : String := sn.nodeInfo.Address

/-- Promoted field of the embedded `NodeInfo`. -/
def SuperNodeInfo.NoSuperNode (sn : SuperNodeInfo) : Bool := sn.nodeInfo.NoSuperNode

/-- The mutable state of a `SuperNodeManager` (supernode.go).  The
`messageKey`/port fields are carried for fidelity although no modelled
operation reads them. -/
structure SMState where
  supernodes : List SuperNodeInfo
  localNodeInfo : NodeInfo
  messageKey : List Nat
  tcpPort : Nat
  udpPort : Nat
  isSuperNode : Bool
  noSuperNode : Bool
  superNodeMode : Bool
deriving DecidableEq

/-- `NewSuperNodeManager` (supernode.go): empty peer table, relay flag
off, SuperNode mode enabled by default. -/
def NewSuperNodeManager (localNode : NodeInfo) (messageKey : List Nat)
    (tcpPort udpPort : Nat) (noSuperNode : Bool) : SMState :=
  { supernodes := [], localNodeInfo := localNode, messageKey := messageKey,
    tcpPort := tcpPort, udpPort := udpPort, isSuperNode := false,
    noSuperNode := noSuperNode, superNodeMode := true }

/-- `time.Since(sn.LastActive) < 30*time.Second` at current time `t`. -/
def liveB (t : Nat) (sn : SuperNodeInfo) : Bool := decide (t < sn.LastActive + 30)

/-- `ShouldEnableSuperNodeMode` (supernode.go):
`sm.superNodeMode && nodeCount > 5`. -/
def ShouldEnableSuperNodeMode (s : SMState) (nodeCount : Nat) : Bool :=
  s.superNodeMode && decide (5 < nodeCount)

/-- `AddNode` (supernode.go): refresh the first record with the same ID
(address, nickname, opt-out flag, last-active — the relay flag is kept),
or append a fresh non-relay record. -/
def addNodeList (t : Nat) (n : NodeInfo) : List SuperNodeInfo → List SuperNodeInfo
  | [] => []
  | sn :: rest =>
    if sn.ID = n.ID then
      { sn with
        nodeInfo :=
          { sn.nodeInfo with
            Address := n.Address
            Nickname := n.Nickname
            NoSuperNode := n.NoSuperNode }
        LastActive := t } :: rest
    else sn :: addNodeList t n rest

/-- `AddNode` (supernode.go) on the manager state. -/
def AddNode (s : SMState) (t : Nat) (n : NodeInfo) : SMState :=
  if s.supernodes.any (fun sn => sn.ID == n.ID) then
    { s with supernodes := addNodeList t n s.supernodes }
  else
    { s with supernodes := s.supernodes ++ [{ nodeInfo := n, IsSuperNode := false, LastActive := t }] }

/-- `SetAsSuperNode` (supernode.go): unconditionally flip the relay flag
of the first record with the given ID — note: no `NoSuperNode` check. -/
def setAsSuperNodeList (t : Nat) (nodeID : String) : List SuperNodeInfo → List SuperNodeInfo
  | [] => []
  | sn :: rest =>
    if sn.ID = nodeID then { sn with IsSuperNode := true, LastActive := t } :: rest
    else sn :: setAsSuperNodeList t nodeID rest

/-- `SetAsSuperNode` (supernode.go) on the manager state. -/
def SetAsSuperNode (s : SMState) (t : Nat) (nodeID : String) : SMState :=
  { s with supernodes := setAsSuperNodeList t nodeID s.supernodes }

/-- `GetSuperNodes` (supernode.go): all live relay records. -/
def GetSuperNodes (s : SMState) (t : Nat) : List SuperNodeInfo :=
  s.supernodes.filter (fun sn => liveB t sn && sn.IsSuperNode)

/-- `GetNode` (supernode.go): first record with the given ID. -/
def GetNode (l : List SuperNodeInfo) (nodeID : String) : Option SuperNodeInfo :=
  l.find? (fun sn => sn.ID == nodeID)

/-- The zero value a Go `SuperNodeInfo` variable would hold; used only
as the (never consulted) default of in-bounds `getD` lookups. -/
def dfltRecord : SuperNodeInfo :=
  { nodeInfo := { ID := "", Address := "", Nickname := "", NoSuperNode := false },
    IsSuperNode := false, LastActive := 0 }

/-- `selectNewSuperNode` (supernode.go), which runs under the write lock
its callers hold (`HandleNodeLeave` takes `sm.mu.Lock` on entry): for
the first non-relay, live, non-local record the scan calls
`checkIfNodeIsNoSuperNode`, which calls `GetNode`, which acquires
`sm.mu.RLock`.  Go's `sync.RWMutex` is not reentrant, so that nested
acquisition blocks forever: the operation hangs (`none`) whenever such
a candidate exists.  Only when the scan finds no candidate does the
loop complete and reach the self-promotion fallback, guarded by
`noSuperNode`. -/
def selectNewSuperNode (s : SMState) (t : Nat) : Option SMState :=
  if s.supernodes.any (fun sn =>
      !sn.IsSuperNode && liveB t sn && sn.ID != s.localNodeInfo.Address)
  then none
  else some (if !s.noSuperNode && !s.isSuperNode then { s with isSuperNode := true } else s)

/-- `SelectInitialSuperNode` (supernode.go): takes `sm.mu.Lock`, then for
every record that is not the local node calls
`checkIfNodeIsNoSuperNode` → `GetNode` → `sm.mu.RLock` — the same
non-reentrant self-deadlock, hit at the first non-local record (the
candidate list is still empty at that point, so the `count >= 5` break
is never reached).  The call therefore hangs (`none`) whenever any
non-local record exists; otherwise the candidate list ends up empty and
it returns `""` leaving the state unchanged.  `t` models the
`time.Now().Unix()` seed of the index draw, which sits in unreachable
code. -/
def SelectInitialSuperNode (s : SMState) (t : Nat) : Option (String × SMState) :=
  if s.supernodes.any (fun sn => sn.ID != s.localNodeInfo.Address) then none
  else some ("", s)

/-- `handleSuperNodeLeave` (supernode.go): count live relay records (the
leaver included); elect a new relay when at most one remains — an
election that may hang (see `selectNewSuperNode`). -/
def handleSuperNodeLeave (s : SMState) (t : Nat) : Option SMState :=
  let activeSuperNodes := s.supernodes.countP (fun sn => sn.IsSuperNode && liveB t sn)
  if activeSuperNodes ≤ 1 then selectNewSuperNode s t else some s

/-- `HandleNodeLeave` (supernode.go): at the first record with the given
ID, first run `handleSuperNodeLeave` if the leaver is a relay — which
self-deadlocks (`none`) whenever the election scans a live non-local
regular candidate, so the removal then never executes — and only then
remove the record; no record, no change. -/
def HandleNodeLeave (s : SMState) (t : Nat) (nodeID : String) : Option SMState :=
  match s.supernodes.findIdx? (fun sn => sn.ID == nodeID) with
  | none => some s
  | some i =>
    (if (s.supernodes.getD i dfltRecord).IsSuperNode then handleSuperNodeLeave s t
     else some s).map (fun s1 => { s1 with supernodes := s1.supernodes.eraseIdx i })

/-- `GetBestSuperNodeForConnection` (supernode.go): the first live relay
record, if any. -/
def GetBestSuperNodeForConnection (s : SMState) (t : Nat) : Option SuperNodeInfo :=
  (GetSuperNodes s t).head?

/-! ## Router/Transport (network.go: handleTCPConnection forwarding,
listenForBroadcasts admission) and session façade (SendMessage,
CreateRoom, JoinRoom).

Network sends are fire-and-forget goroutines; what the claims are about
is which peers each pass selects and what is printed locally, so the
embedding computes target-address lists and local-echo print counts. -/

/-- The Regular-peer forwarding pass of `handleTCPConnection`
(network.go lines 237-275): every room node except self and the
connection's remote address, skipping nodes whose manager record is a
relay; returns the dialed addresses in order. -/
def regularForwardPass (roomNodes : List NodeInfo) (localAddr remoteAddr : String)
    (s : SMState) : List String :=
  (roomNodes.filter (fun node =>
    !(node.Address == localAddr || node.Address == remoteAddr) &&
    !(match GetNode s.supernodes node.Address with
      | some sn => sn.IsSuperNode
      | none => false))).map (fun node => node.Address)

/-- The relay redundancy pass of `handleTCPConnection` (network.go lines
278-310): every live relay except self and the connection's remote
address. -/
def relayForwardPass (localAddr remoteAddr : String) (s : SMState) (t : Nat) : List String :=
  ((GetSuperNodes s t).filter (fun sn =>
    !(sn.Address == localAddr || sn.Address == remoteAddr))).map (fun sn => sn.Address)

/-- The complete forwarding decision of `handleTCPConnection` for one
inbound room message (network.go lines 230-314): both passes run only
when `ShouldEnableSuperNodeMode(len(p.Room.Nodes))` holds and the local
node is a relay; otherwise nothing is forwarded. -/
def handleTCPForwardTargets (roomNodes : List NodeInfo) (localAddr remoteAddr : String)
    (s : SMState) (t : Nat) : List String × List String :=
  if ShouldEnableSuperNodeMode s roomNodes.length && s.isSuperNode then
    (regularForwardPass roomNodes localAddr remoteAddr s,
     relayForwardPass localAddr remoteAddr s t)
  else ([], [])

/-- The field-defaulting step of `listenForBroadcasts` (network.go lines
69-77): clear `NoSuperNode` for an empty ID and substitute the
datagram's source address for an empty address. -/
def adjustNodeInfo (srcAddr : String) (n0 : NodeInfo) : NodeInfo :=
  let n1 := if n0.ID == "" then { n0 with NoSuperNode := false } else n0
  if n1.Address == "" then { n1 with Address := srcAddr } else n1

/-- One reception step of `listenForBroadcasts` (network.go lines
62-117), acting on the room list and the SuperNode manager: after JSON
decoding, default the `NoSuperNode` and `Address` fields, drop
announcements of known IDs and of self, admit the peer only below the
`MaxNodes` cap, feed it to the manager (`AddNode`), and — the moment
the room reaches exactly 2 members with no live relay known — call
`SelectInitialSuperNode` synchronously (lines 105-113).  That call
self-deadlocks on the just-admitted non-local record (see
`SelectInitialSuperNode`), so the listener goroutine freezes and reads
no further datagram: modelled as `none`. -/
def recvBroadcastStep (room : List NodeInfo) (s : SMState) (localAddr srcAddr : String)
    (maxNodes t : Nat) (n0 : NodeInfo) : Option (List NodeInfo × SMState) :=
  let n2 := adjustNodeInfo srcAddr n0
  let isRoomNode := room.any (fun node => node.ID == n2.ID)
  if !isRoomNode && n2.ID != localAddr then
    if maxNodes ≤ room.length then some (room, s)
    else
      let room' := room ++ [n2]
      let s' := AddNode s t n2
      if room'.length = 2 ∧ GetSuperNodes s' t = [] then
        if room'.length ≤ 5 then
          (SelectInitialSuperNode s' t).map (fun res => (room', res.2))
        else some (room', s')
      else some (room', s')
  else some (room, s)

/-- A sequence of broadcast receptions folded over room and manager,
`none` as soon as one reception freezes the listener. -/
def recvBroadcasts (room : List NodeInfo) (s : SMState) (localAddr srcAddr : String)
    (maxNodes t : Nat) (peers : List NodeInfo) : Option (List NodeInfo × SMState) :=
  peers.foldlM (fun rs n => recvBroadcastStep rs.1 rs.2 localAddr srcAddr maxNodes t n)
    (room, s)

/-- Local-echo print count of the direct fan-out loop shared by
`SendMessage`'s standard mode and its no-relay fallback (client source):
one "Me:" line per room node whose address is the local address, plus
one more if no such node was seen (`localDisplayed` stays false). -/
def directFanoutEcho (roomNodes : List NodeInfo) (localAddr : String) : Nat :=
  let c := (roomNodes.filter (fun n => n.Address == localAddr)).length
  c + (if c = 0 then 1 else 0)

/-- Number of local-echo lines `SendMessage` (client source, lines
158-282) prints for one call, by routing branch.  `relaySendSucceeds`
records whether the dial-and-write to the chosen relay succeeds: in the
Regular-peer-via-relay branch the source prints the echo only inside
the success arm of that goroutine. -/
def sendMessageEchoCount (roomNodes : List NodeInfo) (localAddr : String) (s : SMState)
    (t : Nat) (relaySendSucceeds : Bool) : Nat :=
  if ShouldEnableSuperNodeMode s roomNodes.length then
    if s.isSuperNode then 1
    else
      match GetBestSuperNodeForConnection s t with
      | some _ => if relaySendSucceeds then 1 else 0
      | none => directFanoutEcho roomNodes localAddr
  else directFanoutEcho roomNodes localAddr

/-- The configuration snapshot consumed by the client (main.go `Config`
plus the `NoSuperNode` option referenced by the client source; only the
fields the modelled operations read are carried). -/
structure GoConfig where
  TCPPort : Nat
  UDPPort : Nat
  MaxNodes : Nat
  NoSuperNode : Bool
deriving DecidableEq

/-- The data fields of the `P2PChat` client (client source).  Sockets,
the TCP connection map and the mutex carry no sequential-semantics
content and are omitted. -/
structure ChatState where
  LocalNode : NodeInfo
  RoomID : String
  RoomNodes : List NodeInfo
  RoomPassword : String
  MessageKey : List Nat
  PublicIP : String
  PublicPort : Nat
  Running : Bool
  SuperNodeMgr : SMState
deriving DecidableEq

/-- `CreateRoom` (client source, lines 101-129).  The fresh random key is
the parameter `key`; base64 display encoding (`encoding/base64`, Go
standard library) is the parameter `enc`.  Sets key, room id and
password, rebuilds the manager, and appends the local node to the room
list. -/
def CreateRoom (enc : List Nat → String) (cfg : GoConfig) (st : ChatState)
    (roomID : String) (key : List Nat) : ChatState :=
  let st1 := { st with MessageKey := key, RoomID := roomID, RoomPassword := enc key }
  let st2 := { st1 with
    SuperNodeMgr := NewSuperNodeManager st1.LocalNode key cfg.TCPPort cfg.UDPPort cfg.NoSuperNode }
  let localNode : NodeInfo :=
    { ID := st.LocalNode.Address, Address := st.LocalNode.Address,
      Nickname := st.LocalNode.Nickname, NoSuperNode := cfg.NoSuperNode }
  { st2 with RoomNodes := st2.RoomNodes ++ [localNode] }

/-- `JoinRoom` (client source, lines 132-155).  Base64 decoding is the
parameter `decode` (`none` models a decode error).  On success: set room
id, key and password, refresh `LocalNode.NoSuperNode` from the
configuration, and rebuild the manager. -/
def JoinRoom (decode : String → Option (List Nat)) (cfg : GoConfig) (st : ChatState)
    (roomID password : String) : Except String ChatState :=
  match decode password with
  | none => Except.error "invalid room key"
  | some key =>
    if key.length ≠ 16 then Except.error "room key length incorrect, should be 16 bytes"
    else
      let st1 := { st with RoomID := roomID, MessageKey := key, RoomPassword := password }
      let ln := { st1.LocalNode with NoSuperNode := cfg.NoSuperNode }
      Except.ok { st1 with
        LocalNode := ln,
        SuperNodeMgr := NewSuperNodeManager ln key cfg.TCPPort cfg.UDPPort cfg.NoSuperNode }

/-! ## Concrete scenario states used by counterexamples and witnesses -/

/-- A room peer with equal id and address (the program's `ID = Address`
convention), a non-relay configuration and the given opt-out flag. -/
def mkNode (addr : String) (optOut : Bool) : NodeInfo :=
  { ID := addr, Address := addr, Nickname := addr, NoSuperNode := optOut }

/-- A manager record for `mkNode addr false`. -/
def mkRecord (addr : String) (isRelay : Bool) (lastActive : Nat) : SuperNodeInfo :=
  { nodeInfo := mkNode addr false, IsSuperNode := isRelay, LastActive := lastActive }

/-- The loop-avoidance scenario of the spec: the local node S is a relay
(`isSuperNode = true`), the manager knows A and B as regular peers and C
as a live relay. -/
def loopSM : SMState :=
  { supernodes := [mkRecord "A:1" false 0, mkRecord "B:1" false 0, mkRecord "C:1" true 0],
    localNodeInfo := mkNode "S:1" false, messageKey := [], tcpPort := 8080, udpPort := 8081,
    isSuperNode := true, noSuperNode := false, superNodeMode := true }

/-- The loop-avoidance scenario's room list: exactly the four members
self(S), A, B, C. -/
def loopRoom : List NodeInfo :=
  [mkNode "S:1" false, mkNode "A:1" false, mkNode "B:1" false, mkNode "C:1" false]

/-- A six-member room whose first member is the local node L, crossing
the `> 5` relay-mode threshold. -/
def echoRoom : List NodeInfo :=
  [mkNode "L:1" false, mkNode "P2:1" false, mkNode "P3:1" false,
   mkNode "P4:1" false, mkNode "P5:1" false, mkNode "P6:1" false]

/-- A manager for local node L (not itself a relay) that knows one live
relay R, so `GetBestSuperNodeForConnection` finds a relay. -/
def echoSM : SMState :=
  { supernodes := [mkRecord "R:1" true 0],
    localNodeInfo := mkNode "L:1" false, messageKey := [], tcpPort := 8080, udpPort := 8081,
    isSuperNode := false, noSuperNode := false, superNodeMode := true }

/-- A binding-success STUN response (28 bytes) whose XOR-MAPPED-ADDRESS
attribute declares length 4 with the IPv4 family: type 0x0101, message
length 8, magic cookie, zero transaction id, then the attribute header
`0x0020, 4` and the 4 value bytes `0x00 0x01` (family IPv4) plus a
2-byte XOR port — 4 bytes short of the 8-byte IPv4 address body. -/
def stunTruncatedAttrResponse : List Nat :=
  [0x01, 0x01, 0x00, 0x08, 0x21, 0x12, 0xA4, 0x42,
   0, 0, 0, 0, 0, 0, 0, 0, 0, 0, 0, 0,
   0x00, 0x20, 0x00, 0x04, 0x00, 0x01, 0x00, 0x00]

/-- Peer "a:1" announcing itself without opting out. -/
def peerAIn : NodeInfo := mkNode "a:1" false

/-- The same peer "a:1" re-announcing itself with the opt-out flag set. -/
def peerAOptOut : NodeInfo := mkNode "a:1" true

/-- C7 counterexample run, using only lock-clean operations: admit peer
a, promote it with the unchecked direct assignment `SetAsSuperNode`,
then process a re-announcement of a carrying `NoSuperNode = true`,
which `AddNode` stores while keeping the relay role. -/
def optOutFlipState : SMState :=
  let s0 := NewSuperNodeManager (mkNode "L:1" false) [] 8080 8081 false
  let s1 := AddNode s0 100 peerAIn
  let s2 := SetAsSuperNode s1 101 "a:1"
  AddNode s2 102 peerAOptOut

/-- A one-record manager whose only peer has opted out. -/
def optOutOnlySM : SMState :=
  { supernodes := [{ nodeInfo := peerAOptOut, IsSuperNode := false, LastActive := 0 }],
    localNodeInfo := mkNode "L:1" false, messageKey := [], tcpPort := 8080, udpPort := 8081,
    isSuperNode := false, noSuperNode := false, superNodeMode := true }

/-- A client state before joining any room: empty room list, local node
L with `NoSuperNode = false`. -/
def freshChat : ChatState :=
  { LocalNode := mkNode "L:1" false, RoomID := "", RoomNodes := [], RoomPassword := "",
    MessageKey := [], PublicIP := "L", PublicPort := 8080, Running := false,
    SuperNodeMgr := NewSuperNodeManager (mkNode "L:1" false) [] 8080 8081 false }

/-- A configuration whose `NoSuperNode` option is on. -/
def cfgOptOut : GoConfig := { TCPPort := 8080, UDPPort := 8081, MaxNodes := 100, NoSuperNode := true }

/-- The failover scenario of the spec: one live relay r and three live,
non-opted-out regular peers; the local node L holds no record of
itself. -/
def failoverSM : SMState :=
  { supernodes := [mkRecord "r:1" true 0, mkRecord "p1:1" false 0,
      mkRecord "p2:1" false 0, mkRecord "p3:1" false 0],
    localNodeInfo := mkNode "L:1" false, messageKey := [], tcpPort := 8080, udpPort := 8081,
    isSuperNode := false, noSuperNode := false, superNodeMode := true }

/-- A freshly created manager for local node L: empty peer table. -/
def creatorSM : SMState := NewSuperNodeManager (mkNode "L:1" false) [] 8080 8081 false

/-- A room creator's room list: the local node only. -/
def creatorRoom : List NodeInfo := [mkNode "L:1" false]

/-- Four distinct fresh peers announcing themselves. -/
def fourPeers : List NodeInfo :=
  [mkNode "a:1" false, mkNode "b:1" false, mkNode "c:1" false, mkNode "d:1" false]

/-! # Theorems

First the supporting lemmas about block splitting, CBC chaining and
PKCS7 padding, then one theorem per claim (with witnesses). -/

theorem chunk16Go_fuel (f₁ f₂ : Nat) (l : List Nat) (h₁ : l.length ≤ f₁) (h₂ : l.length ≤ f₂) :
    chunk16Go f₁ l = chunk16Go f₂ l := by
  induction f₁ generalizing f₂ l with
  | zero =>
    have hl : l = [] := List.length_eq_zero.mp (Nat.le_zero.mp h₁)
    subst hl
    cases f₂ <;> rfl
  | succ f ih =>
    cases l with
    | nil => cases f₂ <;> rfl
    | cons a l' =>
      cases f₂ with
      | zero => simp only [List.length_cons] at h₂; omega
      | succ f' =>
        simp only [chunk16Go]
        congr 1
        apply ih
        · simp only [List.length_drop, List.length_cons] at h₁ ⊢; omega
        · simp only [List.length_drop, List.length_cons] at h₂ ⊢; omega

theorem chunk16_cons (l : List Nat) (h : l ≠ []) :
    chunk16 l = l.take 16 :: chunk16 (l.drop 16) := by
  cases l with
  | nil => exact absurd rfl h
  | cons a l' =>
    simp only [chunk16, List.length_cons, chunk16Go]
    congr 1
    apply chunk16Go_fuel
    · simp only [List.length_drop, List.length_cons]; omega
    · exact Nat.le_refl _

theorem chunk16_flatten_self_aux (n : Nat) (l : List Nat) (h : l.length ≤ n) :
    (chunk16 l).flatten = l := by
  induction n generalizing l with
  | zero =>
    have hl : l = [] := List.length_eq_zero.mp (Nat.le_zero.mp h)
    subst hl; rfl
  | succ n ih =>
    by_cases hl : l = []
    · subst hl; rfl
    · rw [chunk16_cons l hl, List.flatten_cons, ih (l.drop 16)
        (by simp only [List.length_drop]; have := List.length_pos.mpr hl; omega),
        List.take_append_drop]

theorem chunk16_flatten_self (l : List Nat) : (chunk16 l).flatten = l :=
  chunk16_flatten_self_aux l.length l (Nat.le_refl _)

theorem chunk16_block_len_aux (n : Nat) (l : List Nat) (h : l.length ≤ n)
    (hm : l.length % 16 = 0) : ∀ b ∈ chunk16 l, b.length = 16 := by
  induction n generalizing l with
  | zero =>
    have hl : l = [] := List.length_eq_zero.mp (Nat.le_zero.mp h)
    subst hl; intro b hb; simp [chunk16, chunk16Go] at hb
  | succ n ih =>
    by_cases hl : l = []
    · subst hl; intro b hb; simp [chunk16, chunk16Go] at hb
    · have hpos := List.length_pos.mpr hl
      have h16 : 16 ≤ l.length := by omega
      rw [chunk16_cons l hl]
      intro b hb
      rcases List.mem_cons.mp hb with hb | hb
      · subst hb; simp only [List.length_take]; omega
      · exact ih (l.drop 16) (by simp only [List.length_drop]; omega)
          (by simp only [List.length_drop]; omega) b hb

theorem chunk16_block_len (l : List Nat) (hm : l.length % 16 = 0) :
    ∀ b ∈ chunk16 l, b.length = 16 :=
  chunk16_block_len_aux l.length l (Nat.le_refl _) hm

theorem chunk16_of_flatten (blocks : List (List Nat)) (h : ∀ b ∈ blocks, b.length = 16) :
    chunk16 blocks.flatten = blocks := by
  induction blocks with
  | nil => rfl
  | cons b bs ih =>
    have hb : b.length = 16 := h b (List.mem_cons_self b bs)
    have hne : (b :: bs).flatten ≠ [] := by
      simp only [List.flatten_cons]
      intro hcontra
      have := congrArg List.length hcontra
      simp only [List.length_append, List.length_nil] at this
      omega
    rw [List.flatten_cons] at hne ⊢
    rw [chunk16_cons _ hne]
    have htake : (b ++ bs.flatten).take 16 = b := by
      rw [show (16 : Nat) = b.length from hb.symm]; exact List.take_left b _
    have hdrop : (b ++ bs.flatten).drop 16 = bs.flatten := by
      rw [show (16 : Nat) = b.length from hb.symm]; exact List.drop_left b _
    rw [htake, hdrop, ih (fun x hx => h x (List.mem_cons_of_mem b hx))]

theorem xorBytes_length (a b : List Nat) : (xorBytes a b).length = min a.length b.length := by
  simp [xorBytes]

theorem xorBytes_cancel (a b : List Nat) (h : b.length ≤ a.length) :
    xorBytes a (xorBytes a b) = b := by
  induction a generalizing b with
  | nil =>
    cases b with
    | nil => rfl
    | cons y b' => simp only [List.length_cons, List.length_nil] at h; omega
  | cons x a ih =>
    cases b with
    | nil => rfl
    | cons y b' =>
      simp only [xorBytes, List.zipWith_cons_cons] at *
      rw [Nat.xor_cancel_left]
      exact congrArg (y :: ·) (ih b' (by simpa using h))

theorem cbcEnc_block_len (E : List Nat → List Nat)
    (hE : ∀ b, b.length = 16 → (E b).length = 16) :
    ∀ (bs : List (List Nat)) (prev : List Nat), prev.length = 16 →
      (∀ b ∈ bs, b.length = 16) → ∀ c ∈ cbcEnc E prev bs, c.length = 16 := by
  intro bs
  induction bs with
  | nil => intro prev _ _ c hc; simp [cbcEnc] at hc
  | cons b bs ih =>
    intro prev hprev hbs c hc
    have hb : b.length = 16 := hbs b (List.mem_cons_self b bs)
    have hxl : (xorBytes prev b).length = 16 := by rw [xorBytes_length, hprev, hb]; rfl
    have hcl : (E (xorBytes prev b)).length = 16 := hE _ hxl
    simp only [cbcEnc] at hc
    rcases List.mem_cons.mp hc with hc | hc
    · subst hc; exact hcl
    · exact ih (E (xorBytes prev b)) hcl (fun x hx => hbs x (List.mem_cons_of_mem b hx)) c hc

theorem cbcDec_cbcEnc (E D : List Nat → List Nat)
    (hED : ∀ b, b.length = 16 → D (E b) = b)
    (hE : ∀ b, b.length = 16 → (E b).length = 16) :
    ∀ (bs : List (List Nat)) (prev : List Nat), prev.length = 16 →
      (∀ b ∈ bs, b.length = 16) → cbcDec D prev (cbcEnc E prev bs) = bs := by
  intro bs
  induction bs with
  | nil => intro prev _ _; rfl
  | cons b bs ih =>
    intro prev hprev hbs
    have hb : b.length = 16 := hbs b (List.mem_cons_self b bs)
    have hxl : (xorBytes prev b).length = 16 := by rw [xorBytes_length, hprev, hb]; rfl
    have hcl : (E (xorBytes prev b)).length = 16 := hE _ hxl
    simp only [cbcEnc, cbcDec]
    rw [hED _ hxl, xorBytes_cancel prev b (by omega),
      ih (E (xorBytes prev b)) hcl (fun x hx => hbs x (List.mem_cons_of_mem b hx))]

theorem flatten_len_mod16 (L : List (List Nat)) (h : ∀ c ∈ L, c.length = 16) :
    L.flatten.length % 16 = 0 := by
  induction L with
  | nil => rfl
  | cons c L ih =>
    have h1 : c.length = 16 := h c (List.mem_cons_self c L)
    have h2 := ih (fun x hx => h x (List.mem_cons_of_mem c hx))
    simp only [List.flatten_cons, List.length_append, h1]
    omega

theorem cbcDec_block_len (D : List Nat → List Nat)
    (hD : ∀ b, b.length = 16 → (D b).length = 16) :
    ∀ (cs : List (List Nat)) (prev : List Nat), prev.length = 16 →
      (∀ c ∈ cs, c.length = 16) → ∀ x ∈ cbcDec D prev cs, x.length = 16 := by
  intro cs
  induction cs with
  | nil => intro prev _ _ x hx; simp [cbcDec] at hx
  | cons c cs ih =>
    intro prev hprev hcs x hx
    have hc : c.length = 16 := hcs c (List.mem_cons_self c cs)
    simp only [cbcDec] at hx
    rcases List.mem_cons.mp hx with hx | hx
    · subst hx; rw [xorBytes_length, hprev, hD c hc]; rfl
    · exact ih c hc (fun y hy => hcs y (List.mem_cons_of_mem c hy)) x hx

theorem getLastD_append_right (l r : List Nat) (d : Nat) (h : r ≠ []) :
    (l ++ r).getLastD d = r.getLastD d := by
  rw [List.getLastD_eq_getLast?, List.getLastD_eq_getLast?,
    List.getLast?_append_of_ne_nil _ h]

theorem getLastD_replicate (k x : Nat) : ∀ d, (List.replicate (k + 1) x).getLastD d = x := by
  induction k with
  | zero => intro d; rfl
  | succ k ih => intro d; rw [List.replicate_succ, List.getLastD_cons]; exact ih x

theorem pkcs7Unpad_append_replicate (data : List Nat) (q : Nat) (h1 : 1 ≤ q) (h2 : q ≤ 16) :
    pkcs7Unpad (data ++ List.replicate q q) 16 = some (Except.ok data) := by
  have hlen : (data ++ List.replicate q q).length = data.length + q := by
    simp [List.length_append, List.length_replicate]
  have hlast : (data ++ List.replicate q q).getLastD 0 = q := by
    rw [getLastD_append_right _ _ _ (by simp [List.replicate]; omega)]
    obtain ⟨k, rfl⟩ : ∃ k, q = k + 1 := ⟨q - 1, by omega⟩
    exact getLastD_replicate k _ 0
  have hsub : (data ++ List.replicate q q).length - q = data.length := by omega
  have hdrop : (data ++ List.replicate q q).drop ((data ++ List.replicate q q).length - q) =
      List.replicate q q := by rw [hsub, List.drop_left]
  have htake : (data ++ List.replicate q q).take ((data ++ List.replicate q q).length - q) =
      data := by rw [hsub, List.take_left]
  have hany : (List.replicate q q).any (fun b => b != q) = false := by
    rw [List.any_eq_false]
    intro x hx
    rw [List.eq_of_mem_replicate hx]
    simp
  simp only [pkcs7Unpad, hlast, hdrop, htake, hany]
  rw [if_neg (by omega), if_neg (by omega), if_neg (by omega)]
  simp

theorem pkcs7Unpad_pkcs7Pad (data : List Nat) :
    pkcs7Unpad (pkcs7Pad data 16) 16 = some (Except.ok data) := by
  have h := pkcs7Unpad_append_replicate data (16 - data.length % 16)
    (by omega) (by omega)
  simpa [pkcs7Pad] using h

theorem decryptAES_append (D : List Nat → List Nat) (iv ct : List Nat)
    (hiv : iv.length = 16) (hmod : ct.length % 16 = 0) :
    decryptAES D (iv ++ ct) = pkcs7Unpad ((cbcDec D iv (chunk16 ct)).flatten) 16 := by
  have htake : (iv ++ ct).take 16 = iv := by
    rw [show (16 : Nat) = iv.length from hiv.symm]; exact List.take_left iv ct
  have hdrop : (iv ++ ct).drop 16 = ct := by
    rw [show (16 : Nat) = iv.length from hiv.symm]; exact List.drop_left iv ct
  simp only [decryptAES, htake, hdrop]
  rw [if_neg (by simp only [List.length_append, hiv]; omega),
    if_neg (by omega)]

/-- C1: for every byte sequence `p` of length 0..1000 and every 16-byte
AES key — the key entering only through its block encryption/decryption
pair `E`/`D`, mutually inverse and length-preserving on 16-byte blocks —
and for every value the random 16-byte IV takes during encryption,
`decryptAES` applied to `encryptAES`'s output succeeds and returns
exactly `p`. -/
theorem decryptAES_encryptAES_roundtrip (E D : List Nat → List Nat)
    (hED : ∀ b, b.length = 16 → D (E b) = b)
    (hE : ∀ b, b.length = 16 → (E b).length = 16)
    (iv : List Nat) (hiv : iv.length = 16)
    (p : List Nat) (hp : p.length ≤ 1000) :
    decryptAES D (encryptAES E iv p) = some (Except.ok p) := by
  have hpadmod : (pkcs7Pad p 16).length % 16 = 0 := by
    simp only [pkcs7Pad, List.length_append, List.length_replicate]; omega
  have hblocks : ∀ b ∈ chunk16 (pkcs7Pad p 16), b.length = 16 :=
    chunk16_block_len _ hpadmod
  have hct : ∀ c ∈ cbcEnc E iv (chunk16 (pkcs7Pad p 16)), c.length = 16 :=
    cbcEnc_block_len E hE _ iv hiv hblocks
  have hctmod : (cbcEnc E iv (chunk16 (pkcs7Pad p 16))).flatten.length % 16 = 0 :=
    flatten_len_mod16 _ hct
  simp only [encryptAES]
  rw [decryptAES_append D iv _ hiv hctmod, chunk16_of_flatten _ hct,
    cbcDec_cbcEnc E D hED hE _ iv hiv hblocks, chunk16_flatten_self,
    pkcs7Unpad_pkcs7Pad]

/-- C1 witness: the identity block-cipher pair, the all-zero IV and the
plaintext `[1, 2, 3]`. -/
theorem decryptAES_encryptAES_roundtrip_witness :
    decryptAES id (encryptAES id (List.replicate 16 0) [1, 2, 3]) =
      some (Except.ok [1, 2, 3]) :=
  decryptAES_encryptAES_roundtrip id id (fun _ _ => rfl) (fun _ h => h)
    (List.replicate 16 0) (by simp) [1, 2, 3] (by norm_num)

theorem pkcs7Unpad_bad (data : List Nat) (hne : data ≠ [])
    (hlen16 : 16 ≤ data.length)
    (h : data.getLastD 0 = 0 ∨ 16 < data.getLastD 0 ∨
      (data.drop (data.length - data.getLastD 0)).any (fun b => b != data.getLastD 0) = true) :
    pkcs7Unpad data 16 = some (Except.error "invalid padding") := by
  have hlen : data.length ≠ 0 := fun hc => hne (List.length_eq_zero.mp hc)
  simp only [pkcs7Unpad]
  rw [if_neg hlen]
  rcases h with h | h | h
  · rw [if_pos (Or.inr h)]
  · rw [if_pos (Or.inl h)]
  · by_cases hbad : 16 < data.getLastD 0 ∨ data.getLastD 0 = 0
    · rw [if_pos hbad]
    · rw [if_neg hbad, if_neg (by omega), if_pos h]

theorem decryptAES_eq_unpad (D : List Nat → List Nat) (data : List Nat)
    (h16 : 16 ≤ data.length) (hmod : (data.length - 16) % 16 = 0) :
    decryptAES D data =
      pkcs7Unpad ((cbcDec D (data.take 16) (chunk16 (data.drop 16))).flatten) 16 := by
  simp only [decryptAES]
  rw [if_neg (by omega), if_neg (by simp only [List.length_drop]; omega)]

/-- C5: for every 16-byte key (entering through its length-preserving
block decryption function `D`) and byte sequence `data`: `decryptAES`
fails with the `InvalidInput` kind when `data` is shorter than one
16-byte block or when the post-IV ciphertext length is not a multiple
of 16; and it fails with the `BadPadding` kind when, after CBC
decryption (the plaintext `pt`), the final byte is 0 or exceeds the
block size, or one of the trailing padding bytes differs from the
padding value. -/
theorem decryptAES_error_kinds (D : List Nat → List Nat)
    (hD : ∀ b, b.length = 16 → (D b).length = 16) (data : List Nat) :
    (data.length < 16 →
      decryptAES D data = some (Except.error "ciphertext too short") ∧
      isInvalidInput (decryptAES D data) = true) ∧
    (16 ≤ data.length → (data.length - 16) % 16 ≠ 0 →
      decryptAES D data = some (Except.error "ciphertext length not multiple of block size") ∧
      isInvalidInput (decryptAES D data) = true) ∧
    (∀ pt : List Nat, pt = (cbcDec D (data.take 16) (chunk16 (data.drop 16))).flatten →
      16 ≤ data.length → (data.length - 16) % 16 = 0 → pt ≠ [] →
      (pt.getLastD 0 = 0 ∨ 16 < pt.getLastD 0 ∨
        (pt.drop (pt.length - pt.getLastD 0)).any (fun b => b != pt.getLastD 0) = true) →
      decryptAES D data = some (Except.error "invalid padding") ∧
      isBadPadding (decryptAES D data) = true) := by
  refine ⟨?_, ?_, ?_⟩
  · intro hshort
    have heq : decryptAES D data = some (Except.error "ciphertext too short") := by
      simp only [decryptAES]
      rw [if_pos hshort]
    exact ⟨heq, by rw [heq]; rfl⟩
  · intro h16 hmod
    have heq : decryptAES D data =
        some (Except.error "ciphertext length not multiple of block size") := by
      simp only [decryptAES]
      rw [if_neg (by omega), if_pos (by simp only [List.length_drop]; omega)]
    exact ⟨heq, by rw [heq]; rfl⟩
  · intro pt hpt h16 hmod hne hcond
    have htakelen : (data.take 16).length = 16 := by
      simp only [List.length_take]; omega
    have hdropmod : (data.drop 16).length % 16 = 0 := by
      simp only [List.length_drop]; omega
    have hcs : ∀ c ∈ chunk16 (data.drop 16), c.length = 16 :=
      chunk16_block_len _ hdropmod
    have hptblocks : ∀ x ∈ cbcDec D (data.take 16) (chunk16 (data.drop 16)), x.length = 16 :=
      cbcDec_block_len D hD _ _ htakelen hcs
    have hptmod : pt.length % 16 = 0 := by
      rw [hpt]; exact flatten_len_mod16 _ hptblocks
    have hptlen : 16 ≤ pt.length := by
      have : 0 < pt.length := List.length_pos.mpr hne
      omega
    have heq : decryptAES D data = some (Except.error "invalid padding") := by
      rw [decryptAES_eq_unpad D data h16 hmod, ← hpt]
      exact pkcs7Unpad_bad pt hne hptlen hcond
    exact ⟨heq, by rw [heq]; rfl⟩

/-- C5 witness: with the identity block cipher — a one-byte blob
(shorter than a block), a 17-byte blob (post-IV remainder of length 1),
and 32 zero bytes (the decrypted block ends in the padding byte 0). -/
theorem decryptAES_error_kinds_witness :
    isInvalidInput (decryptAES id [0]) = true ∧
    isInvalidInput (decryptAES id (List.replicate 17 0)) = true ∧
    isBadPadding (decryptAES id (List.replicate 32 0)) = true := by
  refine ⟨?_, ?_, ?_⟩
  · exact ((decryptAES_error_kinds id (fun _ h => h) [0]).1 (by decide)).2
  · exact ((decryptAES_error_kinds id (fun _ h => h) (List.replicate 17 0)).2.1
      (by decide) (by decide)).2
  · exact ((decryptAES_error_kinds id (fun _ h => h) (List.replicate 32 0)).2.2
      _ rfl (by decide) (by decide) (by decide) (by decide)).2

/-- C2 (code bug, failing input): on the 28-byte binding response whose
XOR-MAPPED-ADDRESS attribute declares length 4 with the IPv4 family,
`parseSTUNResponse` hits the unguarded `attrValue[4:8]` slice — the
source checks only `len(attrValue) >= 4` — and aborts with an
out-of-bounds access (`none`) instead of returning the
"mapped address not found in STUN response" error the spec requires for
a truncated attribute. -/
theorem parseSTUNResponse_truncated_attr_oob :
    parseSTUNResponse stunTruncatedAttrResponse = none ∧
    parseSTUNResponse stunTruncatedAttrResponse ≠
      some (Except.error "mapped address not found in STUN response") := by
  have h0 : parseSTUNResponse stunTruncatedAttrResponse = none := rfl
  refine ⟨h0, ?_⟩
  intro h
  rw [h0] at h
  exact Option.noConfusion h

/-- C3 (counterexample): in the spec's loop-avoidance scenario — local
relay S, members exactly {S, A, B(Regular), C(Relay)}, inbound
connection from A — the full handler forwards to nobody, not to
({B}, {C}): with 4 members `ShouldEnableSuperNodeMode` is false
(threshold is `> 5`), so the relay branch is never entered. -/
theorem handleTCP_loop_scenario_counterexample :
    handleTCPForwardTargets loopRoom "S:1" "A:1" loopSM 0 ≠ (["B:1"], ["C:1"]) := by
  decide

/-- C3 (amended): in the same scenario the two forwarding passes, as
executed whenever the relay branch is taken, select exactly {B} in the
Regular pass and exactly {C} in the Relay pass — never the sender A and
never self — while the full handler, gated on more than 5 members,
forwards nothing for this 4-member room. -/
theorem handleTCP_loop_avoidance :
    regularForwardPass loopRoom "S:1" "A:1" loopSM = ["B:1"] ∧
    relayForwardPass "S:1" "A:1" loopSM 0 = ["C:1"] ∧
    handleTCPForwardTargets loopRoom "S:1" "A:1" loopSM 0 = ([], []) := by
  decide

/-- C4 (counterexample): a Regular peer in relay mode (6 members, a live
relay known) whose dial-or-write to the relay fails prints its own
message 0 times, not exactly once: the source prints the local echo only
in the success arm of the send goroutine. -/
theorem sendMessage_echo_lost_on_relay_failure :
    sendMessageEchoCount echoRoom "L:1" echoSM 0 false ≠ 1 := by
  decide

/-- C4 (amended): provided the local address occurs at most once in the
room list, `SendMessage` prints the local echo exactly once in the
direct fan-out, local-relay and no-relay-fallback branches, independent
of network success; in the Regular-peer-via-relay branch alone it prints
exactly once when the dial-and-write succeeds and zero times when it
fails. -/
theorem sendMessage_echo_count (roomNodes : List NodeInfo) (localAddr : String)
    (s : SMState) (t : Nat) (succ : Bool)
    (h : (roomNodes.filter (fun n => n.Address == localAddr)).length ≤ 1) :
    sendMessageEchoCount roomNodes localAddr s t succ =
      if ShouldEnableSuperNodeMode s roomNodes.length && !s.isSuperNode
          && (GetBestSuperNodeForConnection s t).isSome && !succ
      then 0 else 1 := by
  have hd : directFanoutEcho roomNodes localAddr = 1 := by
    simp only [directFanoutEcho]
    by_cases hc : (roomNodes.filter (fun n => n.Address == localAddr)).length = 0
    · simp [hc]
    · have h1 : (roomNodes.filter (fun n => n.Address == localAddr)).length = 1 := by omega
      simp [h1]
  simp only [sendMessageEchoCount]
  cases hse : ShouldEnableSuperNodeMode s roomNodes.length with
  | false => simp [hse, hd]
  | true =>
    cases hsn : s.isSuperNode with
    | true => simp [hsn]
    | false =>
      cases hbest : GetBestSuperNodeForConnection s t with
      | none => simp [hbest, hd]
      | some r => cases succ <;> simp [hbest]

/-- C4 witness: the 6-member room with a known live relay; a successful
relay send prints the echo exactly once. -/
theorem sendMessage_echo_count_witness :
    sendMessageEchoCount echoRoom "L:1" echoSM 0 true = 1 :=
  (sendMessage_echo_count echoRoom "L:1" echoSM 0 true (by decide)).trans (by decide)

/-- C7 (counterexample): two lock-clean, genuinely executable violations
of the opt-out invariant.  `SetAsSuperNode` — the direct role
assignment — promotes an opted-out record with no `NoSuperNode` check;
and after promoting a non-opted peer with it, a re-announcement
carrying `NoSuperNode = true` makes `AddNode` overwrite the stored flag
while keeping the relay role, reaching a state with an opted-out relay.
(Neither operation nests a lock acquisition, so both runs complete.) -/
theorem optOut_relay_invariant_violated :
    (SetAsSuperNode optOutOnlySM 5 "a:1").supernodes.any
      (fun sn => sn.NoSuperNode && sn.IsSuperNode) = true ∧
    optOutFlipState.supernodes.any (fun sn => sn.NoSuperNode && sn.IsSuperNode) = true := by
  decide

/-- C10 (counterexample): with the configuration's `NoSuperNode` option
on and a local node whose flag is off, a successful `JoinRoom` rewrites
`LocalNode.NoSuperNode` — a field outside the claimed modification set
{room id, stored password, message key, SuperNode manager}. -/
theorem joinRoom_modifies_localNode :
    (JoinRoom (fun _ => some (List.replicate 16 0)) cfgOptOut freshChat "r1" "pw").toOption.map
      (fun st => st.LocalNode.NoSuperNode) = some true ∧
    freshChat.LocalNode.NoSuperNode = false := by
  decide

/-- C7 (amended): the election and failover operations, whenever they
complete at all, never promote any table record — in particular never
an opted-out one: `SelectInitialSuperNode` completes only with an empty
candidate set and changes nothing (it self-deadlocks in
`checkIfNodeIsNoSuperNode` → `GetNode` whenever a non-local record
exists), and `selectNewSuperNode` completes only when no eligible
regular candidate exists, leaving the table unchanged and
self-promoting the local node only when `noSuperNode` is unset.  The
claim's full invariant still fails, through the unchecked
`SetAsSuperNode` and the `AddNode` flag overwrite of the
counterexample. -/
theorem electSteps_respect_optOut (s : SMState) (t : Nat) :
    (∀ (r : String) (s' : SMState), SelectInitialSuperNode s t = some (r, s') →
      s' = s ∧ r = "") ∧
    (∀ s' : SMState, selectNewSuperNode s t = some s' →
      s'.supernodes = s.supernodes ∧
      (s.noSuperNode = true → s'.isSuperNode = s.isSuperNode)) := by
  constructor
  · intro r s' h
    simp only [SelectInitialSuperNode] at h
    split at h
    · exact absurd h (by simp)
    · rw [Option.some_inj] at h
      injection h with hr hs
      exact ⟨hs.symm, hr.symm⟩
  · intro s' h
    simp only [selectNewSuperNode] at h
    split at h
    · exact absurd h (by simp)
    · rw [Option.some_inj] at h
      subst h
      constructor
      · split <;> rfl
      · intro hns
        rw [if_neg (by simp [hns])]

/-- C7 amended witness: a manager whose only record is a relay — the
failover scan finds no regular candidate, completes, and self-promotes
the (non-opted-out) local node without touching the table. -/
theorem electSteps_respect_optOut_witness :
    ({ SetAsSuperNode optOutOnlySM 5 "a:1" with isSuperNode := true } : SMState).supernodes =
      (SetAsSuperNode optOutOnlySM 5 "a:1").supernodes :=
  ((electSteps_respect_optOut (SetAsSuperNode optOutOnlySM 5 "a:1") 0).2
    { SetAsSuperNode optOutOnlySM 5 "a:1" with isSuperNode := true } (by rfl)).1

/-- C8 (code bug): in the claimed scenario — one live relay r and three
live, non-opted-out regular peers — `HandleNodeLeave` on the relay's id
reaches `selectNewSuperNode`, whose scan hits the first live non-local
regular candidate and self-deadlocks acquiring `sm.mu.RLock` (inside
`checkIfNodeIsNoSuperNode` → `GetNode`) under the write lock
`HandleNodeLeave` already holds.  Neither the promotion nor the removal
ever happens: the operation hangs instead of leaving exactly one of the
remaining regular peers promoted. -/
theorem handleNodeLeave_failover_deadlocks :
    HandleNodeLeave failoverSM 0 "r:1" = none := rfl

/-- C6 (code bug): the discovery path cannot perform `MAX_NODES + 1`
admissions.  With cap 3, a creator room holding only the local node,
and four distinct fresh peers announcing themselves, the very first
admission brings the room to 2 members and triggers the synchronous
`SelectInitialSuperNode` call (network.go lines 105-113), which
self-deadlocks on the just-admitted non-local record
(`checkIfNodeIsNoSuperNode` → `GetNode` takes `sm.mu.RLock` under the
held `sm.mu.Lock`) and freezes the listener goroutine: membership
freezes at 2 members and never reaches the cap. -/
theorem admission_discovery_deadlocks :
    recvBroadcastStep creatorRoom creatorSM "L:1" "s" 3 0 (mkNode "a:1" false) = none ∧
    recvBroadcasts creatorRoom creatorSM "L:1" "s" 3 0 fourPeers = none :=
  ⟨rfl, rfl⟩

theorem tryServers_all_fail (attempt : String → Option (String × Nat)) :
    ∀ l : List String, (∀ srv ∈ l, attempt srv = none) → tryServers attempt l = none := by
  intro l
  induction l with
  | nil => intro _; rfl
  | cons srv rest ih =>
    intro h
    simp only [tryServers, h srv (List.mem_cons_self srv rest)]
    exact ih (fun x hx => h x (List.mem_cons_of_mem srv hx))

theorem tryServers_first_success (attempt : String → Option (String × Nat)) :
    ∀ (l : List String) (i : Nat) (r : String × Nat),
      (∀ j, j < i → attempt (l.getD j "") = none) → i < l.length →
      attempt (l.getD i "") = some r → tryServers attempt l = some r := by
  intro l
  induction l with
  | nil => intro i r _ hi _; simp at hi
  | cons srv rest ih =>
    intro i r hj hi hr
    cases i with
    | zero =>
      have h0 : attempt srv = some r := hr
      simp [tryServers, h0]
    | succ k =>
      have h0 : attempt srv = none := hj 0 (Nat.succ_pos k)
      simp only [tryServers, h0]
      exact ih k r (fun j hjk => hj (j + 1) (by omega)) (by simpa using hi) hr

/-- C9: `getPublicIPAndPort` never returns a non-nil error: for every
outcome assignment of the per-server STUN attempts it returns the first
successfully resolved server's mapped address and port, and when every
server fails it returns `getLocalIP()`'s address with the configured
TCP port — still with a nil error. -/
theorem getPublicIPAndPort_never_fails (attempt : String → Option (String × Nat))
    (localIP : String) (tcpPort : Nat) :
    (getPublicIPAndPort attempt localIP tcpPort).2 = none ∧
    ((∀ srv ∈ stunServers, attempt srv = none) →
      (getPublicIPAndPort attempt localIP tcpPort).1 = (localIP, tcpPort)) ∧
    (∀ (i : Nat) (r : String × Nat), i < stunServers.length →
      (∀ j, j < i → attempt (stunServers.getD j "") = none) →
      attempt (stunServers.getD i "") = some r →
      (getPublicIPAndPort attempt localIP tcpPort).1 = r) := by
  refine ⟨?_, ?_, ?_⟩
  · simp only [getPublicIPAndPort]
    cases tryServers attempt stunServers <;> rfl
  · intro hall
    simp only [getPublicIPAndPort, tryServers_all_fail attempt stunServers hall]
  · intro i r hi hj hr
    simp only [getPublicIPAndPort, tryServers_first_success attempt stunServers i r hj hi hr]

/-- C9 witness: all attempts fail — local fallback, nil error. -/
theorem getPublicIPAndPort_never_fails_witness :
    (getPublicIPAndPort (fun _ => none) "10.0.0.5" 9000).2 = none ∧
    (getPublicIPAndPort (fun _ => none) "10.0.0.5" 9000).1 = ("10.0.0.5", 9000) :=
  ⟨(getPublicIPAndPort_never_fails (fun _ => none) "10.0.0.5" 9000).1,
   (getPublicIPAndPort_never_fails (fun _ => none) "10.0.0.5" 9000).2.1 (fun _ _ => rfl)⟩

/-- C10 (amended): a successful `JoinRoom` leaves the room member list
untouched (hence still empty for a fresh client — only `CreateRoom`
appends the local peer) and modifies exactly the room id, the stored
password, the message key, the SuperNode manager, and additionally
`LocalNode.NoSuperNode`, which it refreshes from the configuration. -/
theorem joinRoom_state_change (decode : String → Option (List Nat))
    (enc : List Nat → String) (cfg : GoConfig) (st : ChatState)
    (roomID password : String) (key : List Nat)
    (hdec : decode password = some key) (hlen : key.length = 16) :
    JoinRoom decode cfg st roomID password = Except.ok
      { st with
        RoomID := roomID
        MessageKey := key
        RoomPassword := password
        LocalNode := { st.LocalNode with NoSuperNode := cfg.NoSuperNode }
        SuperNodeMgr := NewSuperNodeManager
          { st.LocalNode with NoSuperNode := cfg.NoSuperNode }
          key cfg.TCPPort cfg.UDPPort cfg.NoSuperNode } ∧
    (∀ st', JoinRoom decode cfg st roomID password = Except.ok st' →
      st'.RoomNodes = st.RoomNodes) ∧
    (CreateRoom enc cfg st roomID key).RoomNodes = st.RoomNodes ++
      [{ ID := st.LocalNode.Address, Address := st.LocalNode.Address,
         Nickname := st.LocalNode.Nickname, NoSuperNode := cfg.NoSuperNode }] := by
  have hmain : JoinRoom decode cfg st roomID password = Except.ok
      { st with
        RoomID := roomID
        MessageKey := key
        RoomPassword := password
        LocalNode := { st.LocalNode with NoSuperNode := cfg.NoSuperNode }
        SuperNodeMgr := NewSuperNodeManager
          { st.LocalNode with NoSuperNode := cfg.NoSuperNode }
          key cfg.TCPPort cfg.UDPPort cfg.NoSuperNode } := by
    simp only [JoinRoom, hdec]
    rw [if_neg (by omega)]
  refine ⟨hmain, ?_, ?_⟩
  · intro st' h
    rw [hmain] at h
    cases h
    rfl
  · simp only [CreateRoom]

/-- C10 amended witness: the fresh client joining with a decodable
16-byte key. -/
theorem joinRoom_state_change_witness :
    JoinRoom (fun _ => some (List.replicate 16 0)) cfgOptOut freshChat "r1" "pw" =
      Except.ok
        { freshChat with
          RoomID := "r1"
          MessageKey := List.replicate 16 0
          RoomPassword := "pw"
          LocalNode := { freshChat.LocalNode with NoSuperNode := true }
          SuperNodeMgr := NewSuperNodeManager
            { freshChat.LocalNode with NoSuperNode := true }
            (List.replicate 16 0) 8080 8081 true } :=
  (joinRoom_state_change (fun _ => some (List.replicate 16 0)) (fun _ => "")
    cfgOptOut freshChat "r1" "pw" (List.replicate 16 0) rfl (by decide)).1

end GoChat
